import Mathlib

/-!
Verification model of `listen_stock.py`, the symbol-state engine and
polling/persistence scheduler of the respawn-stocks-listen repository.

Python floats are modelled as rationals (`ℚ`), Python's `None` as `Option`,
and code that can raise an exception as `Option`-returning functions where
`none` marks the raised exception.  JSON-typed values read from files or
configuration dictionaries are modelled by the inductive type `JVal`.
-/

namespace ListenStock

/-- A JSON-ish dynamic value, as held by the Python dictionaries the script
reads from configuration and cache files. -/
inductive JVal where
  | jnull
  | jbool (b : Bool)
  | jnum (q : ℚ)
  | jstr (s : String)
  | jarr (items : List JVal)
  | jobj (fields : List (String × JVal))

/-- Whether a `JVal` is Python's `None`. -/
def jIsNull : JVal → Bool
  | JVal.jnull => true
  | _ => false

/-- Python truthiness of a `JVal` (used by `if code and ...`). -/
def jTruthy : JVal → Bool
  | JVal.jnull => false
  | JVal.jbool b => b
  | JVal.jnum q => decide (q ≠ 0)
  | JVal.jstr s => !s.isEmpty
  | JVal.jarr l => !l.isEmpty
  | JVal.jobj l => !l.isEmpty

/-- `d.get(k)` on a Python dict modelled as an association list. -/
def jDictGet (fields : List (String × JVal)) (k : String) : Option JVal :=
  (fields.find? (fun e => e.1 = k)).map (fun e => e.2)

/-- `k in d` on a Python dict modelled as an association list. -/
def jDictHasKey (fields : List (String × JVal)) (k : String) : Bool :=
  fields.any (fun e => e.1 = k)

/-- Value of a decimal digit character, `none` for a non-digit. -/
def digitVal (c : Char) : Option ℕ :=
  if c.isDigit then some (c.toNat - 48) else none

/-- Value of a nonempty string of decimal digits, `none` otherwise. -/
def decDigits : List Char → Option ℕ
  | [] => none
  | [c] => digitVal c
  | c :: cs => do
    let d ← digitVal c
    let r ← decDigits cs
    pure (d * 10 ^ cs.length + r)

/-- Split a character list on a separator character. -/
def splitChar (sep : Char) : List Char → List (List Char)
  | [] => [[]]
  | a :: as =>
    let r := splitChar sep as
    if a = sep then [] :: r
    else
      match r with
      | g :: gs => (a :: g) :: gs
      | [] => [[a]]

/-- Models Python `float(s)` on a string for plain decimal literals
(optional sign, digits, optional fractional part); `none` models the
`ValueError` raised on any other string. -/
def parseDecimal (s : String) : Option ℚ :=
  let sb : ℚ × List Char :=
    match s.data with
    | '-' :: rest => (-1, rest)
    | '+' :: rest => (1, rest)
    | cs => (1, cs)
  match splitChar '.' sb.2 with
  | [ipart] => (decDigits ipart).map (fun n => sb.1 * n)
  | [ipart, fpart] =>
    match decDigits ipart, decDigits fpart with
    | some a, some b =>
      some (sb.1 * ((a : ℚ) + (b : ℚ) / 10 ^ fpart.length))
    | _, _ => none
  | _ => none

/-- Models Python `float(v)` on a dynamic value: numbers and booleans
coerce, numeric strings parse, everything else raises (`none`). -/
def pyFloat : JVal → Option ℚ
  | JVal.jnum q => some q
  | JVal.jbool b => some (if b then 1 else 0)
  | JVal.jstr s => parseDecimal s
  | _ => none

/-! ## Cost Calculator — `calculate_holding_from_transactions` -/

/-- One transaction entry from the configuration file: a dict whose
`quantity` and `price` keys may be absent or hold any JSON value. -/
structure Trans where
  quantity : Option JVal
  price : Option JVal

/-- `trans.get('quantity', 0)`: missing key defaults to `0`. -/
def transGet (f : Option JVal) : JVal := f.getD (JVal.jnum 0)

/-- The accumulation loop of `calculate_holding_from_transactions`
(source lines 36-42): coerce both fields with `float(...)`, count the
entry when `quantity > 0 and price > 0`; `none` models the exception
raised by a failed coercion. -/
def calcLoop : List Trans → ℚ → ℚ → Option (ℚ × ℚ)
  | [], tq, tc => some (tq, tc)
  | t :: rest, tq, tc =>
    match pyFloat (transGet t.quantity), pyFloat (transGet t.price) with
    | some q, some p =>
      if q > 0 ∧ p > 0 then calcLoop rest (tq + q) (tc + q * p)
      else calcLoop rest tq tc
    | _, _ => none

/-- `calculate_holding_from_transactions` (source lines 24-44): returns
`(total_quantity, avg_price)`; `none` models a raised exception. -/
def calculate_holding_from_transactions (ts : List Trans) : Option (ℚ × ℚ) :=
  if ts.isEmpty then some (0, 0)
  else
    (calcLoop ts 0 0).map
      (fun r => (r.1, if r.1 > 0 then r.2 / r.1 else 0))

/-- A well-typed transaction whose two fields are plain numbers. -/
def numTrans (t : ℚ × ℚ) : Trans :=
  { quantity := some (JVal.jnum t.1), price := some (JVal.jnum t.2) }

/-- Validity filter of the cost calculator: `quantity > 0 and price > 0`. -/
def validTrans (t : ℚ × ℚ) : Bool := decide (t.1 > 0) && decide (t.2 > 0)

/-- Sum of the quantities of the valid entries. -/
def validQty (ts : List (ℚ × ℚ)) : ℚ :=
  ((ts.filter validTrans).map (fun t => t.1)).sum

/-- Sum of quantity × price over the valid entries. -/
def validCost (ts : List (ℚ × ℚ)) : ℚ :=
  ((ts.filter validTrans).map (fun t => t.1 * t.2)).sum

/-! ## Close-Price Cache — `load_yesterday_close_cache` / `save_yesterday_close_cache`

The per-date cache file is modelled by the `JVal` its JSON text parses to;
the mapping itself by an association list from symbol to price. -/

/-- Python dict assignment `m[k] = v` on an association list: replaces the
binding if the key is present, otherwise appends it. -/
def dictInsert (m : List (String × ℚ)) (k : String) (v : ℚ) :
    List (String × ℚ) :=
  if m.any (fun e => e.1 = k) then
    m.map (fun e => if e.1 = k then (k, v) else e)
  else m ++ [(k, v)]

/-- The extraction loop of `load_yesterday_close_cache` (source lines
174-180 and 185-191): for each entry of the `stocks` array take `code`
and `price`, keep it when `code` is truthy and `price` is not `None`, and
coerce the price with `float(...)`.  `none` models a raised exception
(non-dict entry, or a price `float()` cannot coerce), which the caller
turns into an empty cache. -/
def extractCacheLoop (acc : List (String × ℚ)) :
    List JVal → Option (List (String × ℚ))
  | [] => some acc
  | s :: rest =>
    match s with
    | JVal.jobj f =>
      let codev := (jDictGet f "code").getD JVal.jnull
      let pricev := (jDictGet f "price").getD JVal.jnull
      if jTruthy codev && !(jIsNull pricev) then
        match codev, pyFloat pricev with
        | JVal.jstr cs, some q => extractCacheLoop (dictInsert acc cs q) rest
        | _, none => none
        | _, some _ => extractCacheLoop acc rest
      else extractCacheLoop acc rest
    | _ => none

/-- `load_yesterday_close_cache` (source lines 159-195) applied to the
parsed JSON contents of the cache file: only the snapshot format
`{"date": ..., "stocks": [...]}` (or a nonempty array whose last element
has that format) yields a mapping; anything else — including the flat
`code → price` object that `save_yesterday_close_cache` writes — yields
the empty mapping. -/
def load_yesterday_close_cache (data : JVal) : List (String × ℚ) :=
  match data with
  | JVal.jobj f =>
    if jDictHasKey f "date" && jDictHasKey f "stocks" then
      match (jDictGet f "stocks").getD (JVal.jarr []) with
      | JVal.jarr items => (extractCacheLoop [] items).getD []
      | _ => []
    else []
  | JVal.jarr items =>
    match items.getLast? with
    | some (JVal.jobj f) =>
      if jDictHasKey f "date" && jDictHasKey f "stocks" then
        match (jDictGet f "stocks").getD (JVal.jarr []) with
        | JVal.jarr sts => (extractCacheLoop [] sts).getD []
        | _ => []
      else []
    | _ => []
  | _ => []

/-- `save_yesterday_close_cache` (source lines 198-205): `json.dump` of
the mapping writes a flat JSON object from symbol to price. -/
def save_yesterday_close_cache (cache : List (String × ℚ)) : JVal :=
  JVal.jobj (cache.map (fun e => (e.1, JVal.jnum e.2)))

/-! ## Market classification and trading hours -/

/-- `is_us_stock` (source lines 406-408): all-alphabetic code of length
1 to 5.  `Char.isAlpha` models Python's `str.isalpha` on the ASCII range
of real ticker symbols. -/
def is_us_stock (code : String) : Bool :=
  code.data.all Char.isAlpha && decide (1 ≤ code.length) &&
    decide (code.length ≤ 5)

/-- Prefix check on strings (kernel-friendly `String.startsWith`). -/
def strPre (p s : String) : Bool := p.data.isPrefixOf s.data

/-- The `code_with_prefix` expression used for A-share symbols (source
lines 233, 468, 608): `sz` prefix for codes starting `00` or `30`, else
`sh`. -/
def prefixed_code (code : String) : String :=
  if strPre "00" code || strPre "30" code then "sz" ++ code
  else "sh" ++ code

/-- `get_stock_name` (source lines 603-609). -/
def get_stock_name (code : String) : String :=
  if is_us_stock code then code else prefixed_code code

/-- The market a symbol is gated by (source lines 357-361). -/
def market_name_of (code : String) : String :=
  if is_us_stock code then "美股" else "A股"

/-- Python code-point-lexicographic `<` on character lists. -/
def strLtCore : List Char → List Char → Bool
  | [], [] => false
  | [], _ :: _ => true
  | _ :: _, [] => false
  | a :: as, b :: bs =>
    if a.toNat < b.toNat then true
    else if a.toNat = b.toNat then strLtCore as bs
    else false

/-- Python code-point-lexicographic `<=` on character lists. -/
def strLeCore : List Char → List Char → Bool
  | [], _ => true
  | _ :: _, [] => false
  | a :: as, b :: bs =>
    if a.toNat < b.toNat then true
    else if a.toNat = b.toNat then strLeCore as bs
    else false

/-- Python string `<` (used on `"HH:MM"` time-of-day strings). -/
def strLt (a b : String) : Bool := strLtCore a.data b.data

/-- Python string `<=` (used on `"HH:MM"` time-of-day strings). -/
def strLe (a b : String) : Bool := strLeCore a.data b.data

/-- One configured time-of-day window; either bound may be absent in the
configuration dict. -/
structure TimeWindow where
  start : Option String
  endt : Option String

/-- One market's entry of the `market_hours` configuration. -/
structure MarketConfig where
  enabled : Bool
  weekdays : Option (List ℕ)
  morning : Option TimeWindow
  afternoon : Option TimeWindow

/-- The market-hours configuration: market name to its entry. -/
def lookupMarket (mh : List (String × MarketConfig)) (name : String) :
    Option MarketConfig :=
  (mh.find? (fun e => e.1 = name)).map (fun e => e.2)

/-- `is_trading_time` (source lines 350-403), with the wall clock made
explicit: `weekday` is `now.weekday() + 1` and `cur` is
`now.strftime("%H:%M")`.  A disabled or absent market allows polling; the
morning window wraps past midnight when `start > end`; the afternoon
window is checked as a plain interval. -/
def is_trading_time (code : String) (mh : List (String × MarketConfig))
    (weekday : ℕ) (cur : String) : Bool :=
  let mc := (lookupMarket mh (market_name_of code)).getD
    { enabled := false, weekdays := none, morning := none, afternoon := none }
  if !mc.enabled then true
  else if !((mc.weekdays.getD [1, 2, 3, 4, 5]).contains weekday) then false
  else
    let morningHit :=
      match mc.morning with
      | some w =>
        let s := w.start.getD "09:30"
        let e := w.endt.getD "11:30"
        if strLt e s then strLe s cur || strLe cur e
        else strLe s cur && strLe cur e
      | none => false
    if morningHit then true
    else
      match mc.afternoon with
      | some w =>
        let s := w.start.getD "13:00"
        let e := w.endt.getD "15:00"
        strLe s cur && strLe cur e
      | none => false

/-! ## Symbol State Store and Alert Detector -/

/-- The per-symbol runtime state dict (source lines 721-734). -/
structure SymbolState where
  last_price : Option ℚ
  last_time : Option ℕ
  last_stock_name : String
  last_update_time : String
  last_change_pct : ℚ
  holding_price : Option ℚ
  holding_quantity : ℚ
  transactions : List Trans
  alert_up : Option ℚ
  alert_down : Option ℚ
  alert_triggered_up : Bool
  alert_triggered_down : Bool

/-- `check_price_alert` (source lines 629-669) on the state of a symbol
that is present in `stock_states`: returns the two fired flags and the
state with its `alert_triggered_*` marks updated, following the source's
statement order (up check, down check, then the two resets). -/
def check_price_alert (current_price : ℚ) (st : SymbolState) :
    Bool × Bool × SymbolState :=
  let fu :=
    match st.alert_up with
    | some up =>
      decide (current_price ≥ up) &&
        (!st.alert_triggered_up ||
          (match st.last_price with
           | some lp => decide (lp < up)
           | none => false))
    | none => false
  let st1 := if fu then { st with alert_triggered_up := true } else st
  let fd :=
    match st1.alert_down with
    | some dn =>
      decide (current_price ≤ dn) &&
        (!st1.alert_triggered_down ||
          (match st1.last_price with
           | some lp => decide (lp > dn)
           | none => false))
    | none => false
  let st2 := if fd then { st1 with alert_triggered_down := true } else st1
  let st3 :=
    match st2.alert_up with
    | some up =>
      if current_price < up then { st2 with alert_triggered_up := false }
      else st2
    | none => st2
  let st4 :=
    match st3.alert_down with
    | some dn =>
      if current_price > dn then { st3 with alert_triggered_down := false }
      else st3
    | none => st3
  (fu, fd, st4)

/-- Feed a price sequence through the detector one update at a time, as
the polling loop does: each cycle calls `check_price_alert` and then
records the sampled price as `last_price` (source lines 1159, 1176; when
the price is unchanged the source may skip the write, which leaves the
same value in `last_price`). -/
def alertFeed (st : SymbolState) : List ℚ → List (Bool × Bool)
  | [] => []
  | p :: ps =>
    let r := check_price_alert p st
    (r.1, r.2.1) :: alertFeed { r.2.2 with last_price := some p } ps

/-! ## Config Reconciler — `reload_config_if_changed` -/

/-- One symbol's entry of the `stocks` configuration after the numeric
alert fields have been coerced (source lines 768-779). -/
structure StockInfo where
  transactions : List Trans
  alert_up : Option ℚ
  alert_down : Option ℚ

/-- The fresh blank state built for a newly added symbol (source lines
721-734 and 794-807), given the holding `(hq, hp)` computed from its
transactions. -/
def fresh_symbol_state (code : String) (info : StockInfo) (hq hp : ℚ) :
    SymbolState :=
  { last_price := none
    last_time := none
    last_stock_name := get_stock_name code
    last_update_time := "--"
    last_change_pct := 0
    holding_price := if hq > 0 then some hp else none
    holding_quantity := hq
    transactions := info.transactions
    alert_up := info.alert_up
    alert_down := info.alert_down
    alert_triggered_up := false
    alert_triggered_down := false }

/-- The in-place update applied to an existing symbol's state on config
reload (source lines 781-791): holding and alert fields are recomputed,
the `alert_triggered_*` marks are cleared, all price fields are kept. -/
def update_symbol_state (st : SymbolState) (info : StockInfo) (hq hp : ℚ) :
    SymbolState :=
  { st with
    holding_price := if hq > 0 then some hp else none
    holding_quantity := hq
    transactions := info.transactions
    alert_up := info.alert_up
    alert_down := info.alert_down
    alert_triggered_up := false
    alert_triggered_down := false }

/-- The per-symbol loop of `reload_config_if_changed` (source lines
768-807) over the new configuration, on the state map modelled as a
function from code to optional state.  `none` models an exception inside
the loop (the surrounding `try` then discards the whole reload). -/
def applyCfg (states : String → Option SymbolState) :
    List (String × StockInfo) → Option (String → Option SymbolState)
  | [] => some states
  | (code, info) :: rest =>
    match calculate_holding_from_transactions info.transactions with
    | none => none
    | some r =>
      let st' :=
        match states code with
        | some st => update_symbol_state st info r.1 r.2
        | none => fresh_symbol_state code info r.1 r.2
      applyCfg (fun c => if c = code then some st' else states c) rest

/-- The codes of a configuration, in order. -/
def cfgCodes (cfg : List (String × StockInfo)) : List String :=
  cfg.map (fun e => e.1)

/-! ## Metrics Aggregator — the totals of `generate_display` -/

/-- Per-symbol holding value as displayed (source lines 840-843):
`last_price × holding_quantity` when a price is known and the quantity is
positive. -/
def symbol_holding_value (st : SymbolState) : Option ℚ :=
  match st.last_price with
  | some p => if st.holding_quantity > 0 then some (p * st.holding_quantity) else none
  | none => none

/-- Per-symbol profit as displayed (source lines 844-846):
`(last_price − holding_price) × holding_quantity` when a price, a positive
quantity and a cost are all known. -/
def symbol_profit (st : SymbolState) : Option ℚ :=
  match st.last_price with
  | some p =>
    if st.holding_quantity > 0 then
      match st.holding_price with
      | some hp => some ((p - hp) * st.holding_quantity)
      | none => none
    else none
  | none => none

/-- The accumulation of `total_holding_value` across the display loop
(source lines 832-843). -/
def total_holding_value : List SymbolState → ℚ
  | [] => 0
  | st :: rest => (symbol_holding_value st).getD 0 + total_holding_value rest

/-- The portfolio totals computed by `generate_display` (source lines
982-996): `(total_holding_value, total_assets, position_pct,
total_profit)`. -/
def display_totals (available_funds total_original_funds : ℚ)
    (sts : List SymbolState) : ℚ × ℚ × ℚ × ℚ :=
  let thv := total_holding_value sts
  let ta := available_funds + thv
  let ppct := if ta > 0 then thv / ta * 100 else 0
  let tp := ta - total_original_funds
  (thv, ta, ppct, tp)

/-- The display's total profit (source line 996). -/
def display_total_profit (available_funds total_original_funds : ℚ)
    (sts : List SymbolState) : ℚ :=
  (display_totals available_funds total_original_funds sts).2.2.2

/-- Sum of the displayed per-symbol profits. -/
def sum_symbol_profits (sts : List SymbolState) : ℚ :=
  (sts.map (fun st => (symbol_profit st).getD 0)).sum

/-! ## Snapshot scheduling — the date-rollover logic of `listen_stocks`

Each loop cycle ends with the persistence block of source lines
1198-1207: if the remembered date differs from the observed date, write a
snapshot for the remembered date from the live engine state, remember the
observed date, then write the observed date's snapshot from the same
state.  A cycle is modelled by the pair of the date string it observes
and the engine state at its persistence point; the payload type is a
parameter because the persister consumes it opaquely. -/
def cycleWrites {α : Type} : List (String × α) → String → List (String × α)
  | [], _ => []
  | (d, s) :: rest, lastSaved =>
    (if lastSaved ≠ d then [(lastSaved, s)] else []) ++
      (d, s) :: cycleWrites rest d

/-! ## Endpoint selection of `get_realtime_price` -/

/-- A provider endpoint attempted by `get_realtime_price`. -/
inductive QuoteEndpoint where
  | spotXq (symbol : String)
  | infoEm (symbol : String)

/-- The providers tried for a symbol, in order (source lines 418-565): a
US symbol goes to the Xueqiu spot endpoint with the bare code; everything
else goes to the Eastmoney endpoint and then, as fallback, to Xueqiu with
the exchange-prefixed code. -/
def quote_endpoints (code : String) : List QuoteEndpoint :=
  if is_us_stock code then [QuoteEndpoint.spotXq code]
  else [QuoteEndpoint.infoEm code, QuoteEndpoint.spotXq (prefixed_code code)]

/-- The provider function an endpoint stands for. -/
def endpoint_kind : QuoteEndpoint → String
  | QuoteEndpoint.spotXq _ => "stock_individual_spot_xq"
  | QuoteEndpoint.infoEm _ => "stock_individual_info_em"

/-! ## Concrete states used by the theorems below -/

/-- A symbol state with no holdings, as created on first config load,
with the given alert configuration and price history. -/
def mk_alert_state (up dn lp : Option ℚ) (tu td : Bool) : SymbolState :=
  { last_price := lp
    last_time := none
    last_stock_name := ""
    last_update_time := "--"
    last_change_pct := 0
    holding_price := none
    holding_quantity := 0
    transactions := []
    alert_up := up
    alert_down := dn
    alert_triggered_up := tu
    alert_triggered_down := td }

/-! ## Claim C1 -/

/-- C1: with `alertUp = 10` and no `alertDown`, starting from the initial
state (no alert yet triggered, no previous price), the price sequence
`[9, 10, 10, 9, 10]` fires the up-alert exactly at indices 1 and 4 — in
particular not at index 2 — and never fires the down-alert. -/
theorem C1_alert_hysteresis_trace :
    alertFeed (mk_alert_state (some 10) none none false false)
        [9, 10, 10, 9, 10] =
      [(false, false), (true, false), (false, false), (false, false),
        (true, false)] := by decide

/-! ## Claim C3 -/

/-- The accumulator loop on well-typed transactions adds exactly the
valid quantities and valid quantity × price products. -/
theorem calcLoop_num (ts : List (ℚ × ℚ)) : ∀ tq tc : ℚ,
    calcLoop (ts.map numTrans) tq tc =
      some (tq + validQty ts, tc + validCost ts) := by
  induction ts with
  | nil => intro tq tc; simp [calcLoop, validQty, validCost]
  | cons h t ih =>
    intro tq tc
    by_cases hv : h.1 > 0 ∧ h.2 > 0
    · have hvb : validTrans h = true := by
        simp [validTrans, hv.1, hv.2]
      simp only [List.map_cons, calcLoop, numTrans, transGet,
        Option.getD_some, pyFloat]
      rw [if_pos hv, ih]
      simp only [validQty, validCost, List.filter_cons, hvb, if_true,
        List.map_cons, List.sum_cons, Option.some.injEq, Prod.mk.injEq]
      constructor <;> ring
    · have hvb : validTrans h = false := by
        simp only [validTrans, Bool.and_eq_false_iff, decide_eq_false_iff_not]
        by_cases h1 : h.1 > 0
        · exact Or.inr (fun h2 => hv ⟨h1, h2⟩)
        · exact Or.inl h1
      simp only [List.map_cons, calcLoop, numTrans, transGet,
        Option.getD_some, pyFloat]
      rw [if_neg hv, ih]
      simp [validQty, validCost, List.filter_cons, hvb]

/-- If no valid quantity accumulates, no valid cost does either (every
valid entry has a strictly positive quantity). -/
theorem validCost_eq_zero (ts : List (ℚ × ℚ)) (h : validQty ts = 0) :
    validCost ts = 0 := by
  induction ts with
  | nil => simp [validCost]
  | cons hd t ih =>
    by_cases hv : validTrans hd = true
    · exfalso
      have h1 : hd.1 > 0 := by
        have := hv
        simp only [validTrans, Bool.and_eq_true, decide_eq_true_eq] at this
        exact this.1
      have h2 : 0 ≤ validQty t := by
        simp only [validQty]
        apply List.sum_nonneg
        intro x hx
        simp only [List.mem_map, List.mem_filter] at hx
        obtain ⟨y, ⟨_, hy⟩, rfl⟩ := hx
        simp only [validTrans, Bool.and_eq_true, decide_eq_true_eq] at hy
        exact le_of_lt hy.1
      have : validQty (hd :: t) = hd.1 + validQty t := by
        simp [validQty, List.filter_cons, hv]
      linarith [h ▸ this]
    · have hvb : validTrans hd = false := by
        revert hv; cases validTrans hd <;> simp
      have hq : validQty (hd :: t) = validQty t := by
        simp [validQty, List.filter_cons, hvb]
      have hc : validCost (hd :: t) = validCost t := by
        simp [validCost, List.filter_cons, hvb]
      rw [hc]
      exact ih (by rw [← hq]; exact h)

/-- C3: on well-typed transactions the cost calculator returns the sum of
the valid quantities and the average cost over the valid entries; the
average times the quantity recovers the valid total cost; entries failing
`quantity > 0 ∧ price > 0` never affect the result (the result equals the
result on the valid sublist); and an empty valid sublist yields `(0, 0)`. -/
theorem C3_cost_calculator (ts : List (ℚ × ℚ)) :
    calculate_holding_from_transactions (ts.map numTrans) =
      some (validQty ts,
        if validQty ts > 0 then validCost ts / validQty ts else 0) ∧
    (if validQty ts > 0 then validCost ts / validQty ts else 0) *
        validQty ts = validCost ts ∧
    calculate_holding_from_transactions (ts.map numTrans) =
      calculate_holding_from_transactions
        ((ts.filter validTrans).map numTrans) ∧
    (ts.filter validTrans = [] →
      calculate_holding_from_transactions (ts.map numTrans) = some (0, 0)) := by
  have key : ∀ l : List (ℚ × ℚ),
      calculate_holding_from_transactions (l.map numTrans) =
        some (validQty l,
          if validQty l > 0 then validCost l / validQty l else 0) := by
    intro l
    cases l with
    | nil => simp [calculate_holding_from_transactions, validQty, validCost]
    | cons h t =>
      simp only [calculate_holding_from_transactions, List.map_cons,
        List.isEmpty_cons, Bool.false_eq_true, if_false, calcLoop_num,
        Option.map_some]
      have := calcLoop_num (h :: t) 0 0
      simp only [List.map_cons] at this
      rw [this]
      simp
  refine ⟨key ts, ?_, ?_, ?_⟩
  · by_cases hq : validQty ts > 0
    · simp only [hq, if_true]
      field_simp
    · have h0 : validQty ts = 0 := by
        have : 0 ≤ validQty ts := by
          simp only [validQty]
          apply List.sum_nonneg
          intro x hx
          simp only [List.mem_map, List.mem_filter] at hx
          obtain ⟨y, ⟨_, hy⟩, rfl⟩ := hx
          simp only [validTrans, Bool.and_eq_true, decide_eq_true_eq] at hy
          exact le_of_lt hy.1
        linarith [lt_or_eq_of_le this]
      simp [hq, h0, validCost_eq_zero ts h0]
  · rw [key ts, key (ts.filter validTrans)]
    have hfq : validQty (ts.filter validTrans) = validQty ts := by
      simp [validQty, List.filter_filter]
    have hfc : validCost (ts.filter validTrans) = validCost ts := by
      simp [validCost, List.filter_filter]
    rw [hfq, hfc]
  · intro hnil
    rw [key ts]
    have hq : validQty ts = 0 := by simp [validQty, hnil]
    have hc : validCost ts = 0 := by simp [validCost, hnil]
    simp [hq, hc]

/-- Witness for C3 at a concrete transaction list with no valid entry. -/
theorem C3_cost_calculator_witness :
    ([((-1 : ℚ), (5 : ℚ)), (3, 0)].filter validTrans = [] →
      calculate_holding_from_transactions
        (([((-1 : ℚ), (5 : ℚ)), (3, 0)]).map numTrans) = some (0, 0)) ∧
    calculate_holding_from_transactions
      (([((-1 : ℚ), (5 : ℚ)), (3, 0)]).map numTrans) = some (0, 0) :=
  ⟨(C3_cost_calculator [(-1, 5), (3, 0)]).2.2.2,
    (C3_cost_calculator [(-1, 5), (3, 0)]).2.2.2 (by decide)⟩

/-! ## Claim C9 -/

/-- The accumulator loop cannot raise when every field coerces. -/
theorem calcLoop_isSome (ts : List Trans)
    (h : ∀ t ∈ ts, (pyFloat (transGet t.quantity)).isSome ∧
      (pyFloat (transGet t.price)).isSome) :
    ∀ tq tc : ℚ, (calcLoop ts tq tc).isSome := by
  induction ts with
  | nil => intro tq tc; simp [calcLoop]
  | cons hd t ih =>
    intro tq tc
    obtain ⟨hq, hp⟩ := h hd (List.mem_cons_self hd t)
    obtain ⟨q, hq'⟩ := Option.isSome_iff_exists.mp hq
    obtain ⟨p, hp'⟩ := Option.isSome_iff_exists.mp hp
    have ih' := ih (fun t' ht' => h t' (List.mem_cons_of_mem hd ht'))
    simp only [calcLoop, hq', hp']
    by_cases hv : q > 0 ∧ p > 0
    · simp [hv, ih']
    · simp [hv, ih']

/-- C9 counterexample: the claim says the cost calculator has no failure
mode even on non-numeric values, but an entry whose quantity is the
string `"abc"` makes the source's `float(...)` raise a `ValueError`
(modelled by `none`) instead of being silently excluded. -/
theorem C9_counterexample :
    calculate_holding_from_transactions
      [{ quantity := some (JVal.jstr "abc"), price := some (JVal.jnum 1) }] =
      none := by decide

/-- C9 (amended): the cost calculator returns a `(quantity, avgCost)`
pair without raising for every list whose present fields coerce to
numbers — missing fields and non-positive values are silently excluded —
but an entry whose quantity or price fails numeric coercion raises. -/
theorem C9_total_on_coercible (ts : List Trans)
    (h : ∀ t ∈ ts, (pyFloat (transGet t.quantity)).isSome ∧
      (pyFloat (transGet t.price)).isSome) :
    (calculate_holding_from_transactions ts).isSome := by
  by_cases he : ts.isEmpty
  · simp [calculate_holding_from_transactions, he]
  · simp [calculate_holding_from_transactions, he, calcLoop_isSome ts h 0 0]

/-- Witness for C9 at a concrete coercible list. -/
theorem C9_total_on_coercible_witness :
    (calculate_holding_from_transactions
      [numTrans (2, 10), { quantity := none, price := none }]).isSome :=
  C9_total_on_coercible _ (by decide)

/-! ## Claim C2

The claim's `armedUp`/`armedDown` are read per the spec's glossary —
"armed" means eligible to fire again — so they are the negations of the
source's `alert_triggered_up`/`alert_triggered_down` marks (the config
reconciler "re-arms" a symbol by clearing those marks to `False`). -/

/-- Claim C2 exactly as stated, at one detector step: the fire
conditions, that firing leaves the direction armed
(`alert_triggered_* = false`), and that a price on the safe side of a
threshold disarms it (`alert_triggered_* = true`). -/
def claimC2 (st : SymbolState) (p : ℚ) : Prop :=
  ((check_price_alert p st).1 = true ↔
    ∃ up, st.alert_up = some up ∧ p ≥ up ∧
      (st.alert_triggered_up = false ∨
        ∃ lp, st.last_price = some lp ∧ lp < up)) ∧
  ((check_price_alert p st).1 = true →
    (check_price_alert p st).2.2.alert_triggered_up = false) ∧
  ((check_price_alert p st).2.1 = true ↔
    ∃ dn, st.alert_down = some dn ∧ p ≤ dn ∧
      (st.alert_triggered_down = false ∨
        ∃ lp, st.last_price = some lp ∧ lp > dn)) ∧
  ((check_price_alert p st).2.1 = true →
    (check_price_alert p st).2.2.alert_triggered_down = false) ∧
  (∀ up, st.alert_up = some up → p < up →
    (check_price_alert p st).2.2.alert_triggered_up = true) ∧
  (∀ dn, st.alert_down = some dn → p > dn →
    (check_price_alert p st).2.2.alert_triggered_down = true)

/-- C2 counterexample: at the armed state with `alertUp = 10`, no
previous price and price `10`, the up-trigger fires but the step leaves
`alert_triggered_up = true` (armed is now *false*), while the claim says
firing sets armed to true; symmetrically its reset clause is also
inverted.  So the claim as stated fails at this input. -/
theorem C2_counterexample :
    ¬ claimC2 (mk_alert_state (some 10) none none false false) 10 := by
  intro h
  have h1 : (check_price_alert 10
      (mk_alert_state (some 10) none none false false)).1 = true := by decide
  have h2 := h.2.1 h1
  have h3 : (check_price_alert 10
      (mk_alert_state (some 10) none none false false)).2.2.alert_triggered_up
      = true := by decide
  rw [h2] at h3
  exact Bool.false_ne_true h3

/-- Projection of a conditional state through `alert_triggered_up`. -/
theorem ite_trig_up (c : Prop) [Decidable c] (a b : SymbolState) :
    (if c then a else b).alert_triggered_up =
      if c then a.alert_triggered_up else b.alert_triggered_up := by
  split <;> rfl

/-- Projection of a conditional state through `alert_triggered_down`. -/
theorem ite_trig_down (c : Prop) [Decidable c] (a b : SymbolState) :
    (if c then a else b).alert_triggered_down =
      if c then a.alert_triggered_down else b.alert_triggered_down := by
  split <;> rfl

/-- Projection of a conditional state through `alert_up`. -/
theorem ite_alert_up (c : Prop) [Decidable c] (a b : SymbolState) :
    (if c then a else b).alert_up =
      if c then a.alert_up else b.alert_up := by
  split <;> rfl

/-- Projection of a conditional state through `alert_down`. -/
theorem ite_alert_down (c : Prop) [Decidable c] (a b : SymbolState) :
    (if c then a else b).alert_down =
      if c then a.alert_down else b.alert_down := by
  split <;> rfl

/-- Projection of a conditional state through `last_price`. -/
theorem ite_last_price (c : Prop) [Decidable c] (a b : SymbolState) :
    (if c then a else b).last_price =
      if c then a.last_price else b.last_price := by
  split <;> rfl

/-- Fire condition of the up-trigger (source lines 647-653). -/
theorem fireUp_iff (st : SymbolState) (p : ℚ) :
    (check_price_alert p st).1 = true ↔
      ∃ up, st.alert_up = some up ∧ p ≥ up ∧
        (st.alert_triggered_up = false ∨
          ∃ lp, st.last_price = some lp ∧ lp < up) := by
  cases hu : st.alert_up with
  | none => simp [check_price_alert, hu]
  | some up =>
    cases hl : st.last_price with
    | none =>
      simp [check_price_alert, hu, hl, Bool.and_eq_true,
        Bool.or_eq_true, Bool.not_eq_true', decide_eq_true_eq, and_comm]
    | some lp =>
      simp [check_price_alert, hu, hl, Bool.and_eq_true,
        Bool.or_eq_true, Bool.not_eq_true', decide_eq_true_eq, and_comm]

/-- Fire condition of the down-trigger (source lines 655-661): the
intermediate up-mark mutation does not affect the fields it reads. -/
theorem fireDown_iff (st : SymbolState) (p : ℚ) :
    (check_price_alert p st).2.1 = true ↔
      ∃ dn, st.alert_down = some dn ∧ p ≤ dn ∧
        (st.alert_triggered_down = false ∨
          ∃ lp, st.last_price = some lp ∧ lp > dn) := by
  cases hd : st.alert_down with
  | none =>
    simp [check_price_alert, hd, ite_alert_down, ite_trig_down,
      ite_last_price]
  | some dn =>
    cases hl : st.last_price with
    | none =>
      simp [check_price_alert, hd, hl, ite_alert_down, ite_trig_down,
        ite_last_price, Bool.and_eq_true, Bool.or_eq_true,
        Bool.not_eq_true', decide_eq_true_eq, and_comm]
    | some lp =>
      simp [check_price_alert, hd, hl, ite_alert_down, ite_trig_down,
        ite_last_price, Bool.and_eq_true, Bool.or_eq_true,
        Bool.not_eq_true', decide_eq_true_eq, and_comm]

/-- After a step, the up mark records exactly whether the price is at or
above the threshold (source lines 647-653 set it, lines 664-665 clear
it). -/
theorem triggered_up_after (st : SymbolState) (p up : ℚ)
    (hu : st.alert_up = some up) :
    (check_price_alert p st).2.2.alert_triggered_up = decide (p ≥ up) := by
  by_cases hge : p ≥ up
  · have hnl : ¬ p < up := not_lt.mpr hge
    cases hl : st.last_price <;> cases ht : st.alert_triggered_up <;>
      cases hd : st.alert_down <;>
      simp [check_price_alert, hu, hl, ht, hd, hge, hnl, ite_trig_up,
        ite_alert_up, ite_alert_down, ite_trig_down, ite_last_price]
  · have hlt : p < up := lt_of_not_ge hge
    cases hl : st.last_price <;> cases ht : st.alert_triggered_up <;>
      cases hd : st.alert_down <;>
      simp [check_price_alert, hu, hl, ht, hd, hge, hlt, ite_trig_up,
        ite_alert_up, ite_alert_down, ite_trig_down, ite_last_price]

/-- After a step, the down mark records exactly whether the price is at
or below the threshold (source lines 655-661 set it, lines 666-667 clear
it). -/
theorem triggered_down_after (st : SymbolState) (p dn : ℚ)
    (hd : st.alert_down = some dn) :
    (check_price_alert p st).2.2.alert_triggered_down = decide (p ≤ dn) := by
  by_cases hge : p ≤ dn
  · have hnl : ¬ p > dn := not_lt.mpr hge
    cases hl : st.last_price <;> cases ht : st.alert_triggered_down <;>
      cases hu : st.alert_up <;>
      simp [check_price_alert, hd, hl, ht, hu, hge, hnl, ite_trig_up,
        ite_alert_up, ite_alert_down, ite_trig_down, ite_last_price]
  · have hlt : p > dn := lt_of_not_ge hge
    cases hl : st.last_price <;> cases ht : st.alert_triggered_down <;>
      cases hu : st.alert_up <;>
      simp [check_price_alert, hd, hl, ht, hu, hge, hlt, ite_trig_up,
        ite_alert_up, ite_alert_down, ite_trig_down, ite_last_price]

/-- C2 (amended): the fire conditions are as claimed, but the armed flags
move the other way: firing *disarms* the direction
(`alert_triggered_* := true`, i.e. armed becomes false), and after every
update the direction is armed exactly when the price is strictly on the
safe side of its threshold — in particular `p < alertUp` *re-arms* the up
direction rather than disarming it. -/
theorem C2_alert_step_rules (st : SymbolState) (p : ℚ) :
    ((check_price_alert p st).1 = true ↔
      ∃ up, st.alert_up = some up ∧ p ≥ up ∧
        (st.alert_triggered_up = false ∨
          ∃ lp, st.last_price = some lp ∧ lp < up)) ∧
    ((check_price_alert p st).2.1 = true ↔
      ∃ dn, st.alert_down = some dn ∧ p ≤ dn ∧
        (st.alert_triggered_down = false ∨
          ∃ lp, st.last_price = some lp ∧ lp > dn)) ∧
    (∀ up, st.alert_up = some up →
      (check_price_alert p st).2.2.alert_triggered_up = decide (p ≥ up)) ∧
    (∀ dn, st.alert_down = some dn →
      (check_price_alert p st).2.2.alert_triggered_down = decide (p ≤ dn)) :=
  ⟨fireUp_iff st p, fireDown_iff st p,
    fun up hu => triggered_up_after st p up hu,
    fun dn hd => triggered_down_after st p dn hd⟩

/-- Witness for C2 (amended) at the counterexample's input: the trigger
fires and the step leaves the up direction disarmed. -/
theorem C2_alert_step_rules_witness :
    (check_price_alert 10
      (mk_alert_state (some 10) none none false false)).2.2.alert_triggered_up
      = decide ((10 : ℚ) ≥ 10) :=
  (C2_alert_step_rules (mk_alert_state (some 10) none none false false)
    10).2.2.1 10 rfl

/-! ## Claim C4 -/

/-- C4: the close-price cache save/load pair is *not* a round trip — the
code contradicts the cache's documented purpose.  `save_yesterday_close_cache`
writes the mapping as a flat `code → price` JSON object, but
`load_yesterday_close_cache` only recognises the `{"date", "stocks"}`
snapshot format and returns the empty mapping for anything else, so a
previous close written back after a miss is lost and the provider call is
repeated.  Evaluated at the failing input `{"TSLA": 100}`. -/
theorem C4_close_cache_not_roundtrip :
    load_yesterday_close_cache
        (save_yesterday_close_cache [("TSLA", 100)]) = [] ∧
    [("TSLA", (100 : ℚ))] ≠ [] := by decide

/-! ## Claim C5 -/

/-- A displayed symbol row with a known price, a position of one share
bought at 5 and a current price of 10. -/
def c5_state : SymbolState :=
  { mk_alert_state none none (some 10) false false with
    holding_price := some 5
    holding_quantity := 1 }

/-- C5 counterexample: with one symbol priced 10 holding 1 share at cost
5, no available funds and no principal, the per-symbol profits sum to 5
but `generate_display`'s total profit is `total_assets −
total_original_funds = 10`, so the aggregator's total profit is not the
sum of the per-symbol profits. -/
theorem C5_counterexample :
    display_total_profit 0 0 [c5_state] = 10 ∧
    sum_symbol_profits [c5_state] = 5 ∧
    display_total_profit 0 0 [c5_state] ≠ sum_symbol_profits [c5_state] := by
  have h1 : display_total_profit 0 0 [c5_state] = 10 := by
    norm_num [display_total_profit, display_totals, total_holding_value,
      symbol_holding_value, c5_state, mk_alert_state]
  have h2 : sum_symbol_profits [c5_state] = 5 := by
    norm_num [sum_symbol_profits, symbol_profit, c5_state, mk_alert_state]
  refine ⟨h1, h2, ?_⟩
  rw [h1, h2]
  norm_num

/-- C5 (amended): `generate_display`'s total profit equals
`availableFunds + totalHoldingValue − totalOriginalFunds` (total assets
minus principal) rather than the sum of the per-symbol profits; the total
holding value is the sum of `price × quantity` over the symbols with a
known price and a positive quantity, and each symbol with a known price,
positive quantity and known cost shows per-symbol profit
`(price − avgCost) × quantity`. -/
theorem C5_display_totals (af tof : ℚ) (sts : List SymbolState) :
    display_total_profit af tof sts =
      af + total_holding_value sts - tof ∧
    total_holding_value sts =
      (sts.map (fun st => (symbol_holding_value st).getD 0)).sum ∧
    (∀ st ∈ sts, ∀ p hp : ℚ, st.last_price = some p →
      st.holding_price = some hp → st.holding_quantity > 0 →
      symbol_profit st = some ((p - hp) * st.holding_quantity)) ∧
    (∀ st ∈ sts, ∀ p : ℚ, st.last_price = some p →
      st.holding_quantity > 0 →
      symbol_holding_value st = some (p * st.holding_quantity)) := by
  refine ⟨rfl, ?_, ?_, ?_⟩
  · induction sts with
    | nil => simp [total_holding_value]
    | cons h t ih => simp [total_holding_value, ih]
  · intro st _ p hp hlp hhp hq
    simp [symbol_profit, hlp, hhp, hq]
  · intro st _ p hlp hq
    simp [symbol_holding_value, hlp, hq]

/-- Witness for C5 (amended) at the counterexample's input. -/
theorem C5_display_totals_witness :
    display_total_profit 0 0 [c5_state] =
      0 + total_holding_value [c5_state] - 0 ∧
    symbol_profit c5_state = some ((10 - 5) * c5_state.holding_quantity) :=
  ⟨(C5_display_totals 0 0 [c5_state]).1,
    (C5_display_totals 0 0 [c5_state]).2.2.1 c5_state
      (List.mem_singleton.mpr rfl) 10 5 rfl rfl (by norm_num [c5_state, mk_alert_state])⟩

/-! ## Claim C7 -/

/-- Transitivity of the code-point-lexicographic string order. -/
theorem strLeCore_trans : ∀ (a b c : List Char),
    strLeCore a b = true → strLeCore b c = true → strLeCore a c = true := by
  intro a
  induction a with
  | nil => intro b c _ _; simp [strLeCore]
  | cons x xs ih =>
    intro b c hab hbc
    cases b with
    | nil => simp [strLeCore] at hab
    | cons y ys =>
      cases c with
      | nil => simp [strLeCore] at hbc
      | cons z zs =>
        simp only [strLeCore] at hab hbc ⊢
        by_cases h1 : x.toNat < y.toNat
        · by_cases h2 : y.toNat < z.toNat
          · have h3 : x.toNat < z.toNat := by omega
            simp [h3]
          · rw [if_neg h2] at hbc
            by_cases h3 : y.toNat = z.toNat
            · have h4 : x.toNat < z.toNat := by omega
              simp [h4]
            · rw [if_neg h3] at hbc
              exact absurd hbc (by simp)
        · rw [if_neg h1] at hab
          by_cases h4 : x.toNat = y.toNat
          · rw [if_pos h4] at hab
            by_cases h2 : y.toNat < z.toNat
            · have h5 : x.toNat < z.toNat := by omega
              simp [h5]
            · rw [if_neg h2] at hbc
              by_cases h3 : y.toNat = z.toNat
              · rw [if_pos h3] at hbc
                have h6 : ¬ x.toNat < z.toNat := by omega
                have h7 : x.toNat = z.toNat := by omega
                rw [if_neg h6, if_pos h7]
                exact ih ys zs hab hbc
              · rw [if_neg h3] at hbc
                exact absurd hbc (by simp)
          · rw [if_neg h4] at hab
            exact absurd hab (by simp)

/-- Transitivity of Python string `<=` on `"HH:MM"` strings. -/
theorem strLe_trans (a b c : String) (h1 : strLe a b = true)
    (h2 : strLe b c = true) : strLe a c = true :=
  strLeCore_trans a.data b.data c.data h1 h2

/-- An A-share market configuration whose *morning* window is the
wrapping interval 22:30 → 05:00. -/
def c7_morning_cfg : List (String × MarketConfig) :=
  [("A股",
    { enabled := true
      weekdays := some [1, 2, 3, 4, 5]
      morning := some { start := some "22:30", endt := some "05:00" }
      afternoon := none })]

/-- An A-share market configuration whose *afternoon* window is the same
wrapping interval 22:30 → 05:00. -/
def c7_afternoon_cfg : List (String × MarketConfig) :=
  [("A股",
    { enabled := true
      weekdays := some [1, 2, 3, 4, 5]
      morning := none
      afternoon := some { start := some "22:30", endt := some "05:00" } })]

/-- An enabled A-share market configuration with only a morning window. -/
def c7_wrap_cfg (s e : String) : List (String × MarketConfig) :=
  [("A股",
    { enabled := true
      weekdays := none
      morning := some { start := some s, endt := some e }
      afternoon := none })]

/-- C7 counterexample: the claim says a `start > end` window is treated
as wrapping past midnight "for either of the market's one or two
configured windows", but when 22:30 → 05:00 is configured as the
*afternoon* window the check treats it as the empty plain interval:
23:00 and 02:00 — inside the window per the claim — are rejected. -/
theorem C7_counterexample :
    is_trading_time "600000" c7_afternoon_cfg 3 "23:00" = false ∧
    is_trading_time "600000" c7_afternoon_cfg 3 "02:00" = false := by decide

/-- C7 (amended): the wrap-past-midnight interpretation applies to the
*morning* window only: an enabled market whose morning window has
`start > end` admits exactly the times `≥ start` or `≤ end` (so 23:00 and
02:00 are inside 22:30 → 05:00 and 10:00 is outside), while an afternoon
window with `start > end` is checked as the plain interval
`start ≤ t ≤ end`, which admits no time at all. -/
theorem C7_trading_window_wrap :
    (∀ s e cur : String, ∀ wd : ℕ, strLt e s = true → wd ∈ [1, 2, 3, 4, 5] →
      is_trading_time "600000" (c7_wrap_cfg s e) wd cur =
        (strLe s cur || strLe cur e)) ∧
    is_trading_time "600000" c7_morning_cfg 3 "23:00" = true ∧
    is_trading_time "600000" c7_morning_cfg 3 "02:00" = true ∧
    is_trading_time "600000" c7_morning_cfg 3 "10:00" = false ∧
    (∀ cur : String, ∀ wd : ℕ, wd ∈ [1, 2, 3, 4, 5] →
      is_trading_time "600000" c7_afternoon_cfg wd cur = false) := by
  have hm : market_name_of "600000" = "A股" := by decide
  refine ⟨?_, by decide, by decide, by decide, ?_⟩
  · intro s e cur wd hlt hwd
    have hcont : ([1, 2, 3, 4, 5].contains wd) = true :=
      List.elem_eq_true_of_mem hwd
    simp [is_trading_time, hm, c7_wrap_cfg, lookupMarket, List.find?,
      hcont, hlt]
    intro _
    simpa using hwd
  · intro cur wd hwd
    have hcont : ([1, 2, 3, 4, 5].contains wd) = true :=
      List.elem_eq_true_of_mem hwd
    simp only [is_trading_time, hm, c7_afternoon_cfg, lookupMarket,
      List.find?, Option.map_some, Option.getD_some, Bool.not_true,
      Bool.false_eq_true, if_false, hcont, Option.getD_some]
    by_cases h1 : strLe "22:30" cur = true
    · by_cases h2 : strLe cur "05:00" = true
      · have h3 := strLe_trans "22:30" cur "05:00" h1 h2
        exact absurd h3 (by decide)
      · simp [h1, h2]
    · simp [h1]

/-- Witness for C7 (amended) at the spec's own example window and time. -/
theorem C7_trading_window_wrap_witness :
    is_trading_time "600000" (c7_wrap_cfg "22:30" "05:00") 3 "23:00" =
      (strLe "22:30" "23:00" || strLe "23:00" "05:00") :=
  C7_trading_window_wrap.1 "22:30" "05:00" "23:00" 3 (by decide) (by decide)

/-! ## Claim C6 -/

/-- Codes absent from the new configuration are untouched by the
reconciliation loop: their whole state entry is returned unchanged. -/
theorem applyCfg_frame (cfg : List (String × StockInfo)) :
    ∀ (states f : String → Option SymbolState) (code : String),
      code ∉ cfgCodes cfg → applyCfg states cfg = some f →
      f code = states code := by
  induction cfg with
  | nil =>
    intro states f code _ ha
    simp only [applyCfg, Option.some.injEq] at ha
    rw [← ha]
  | cons hd tl ih =>
    intro states f code hmem ha
    obtain ⟨c, i⟩ := hd
    simp only [applyCfg] at ha
    cases hcalc : calculate_holding_from_transactions i.transactions with
    | none => rw [hcalc] at ha; simp at ha
    | some r =>
      rw [hcalc] at ha
      simp only at ha
      have hne : code ≠ c := by
        intro h
        exact hmem (by simp [cfgCodes, h])
      have htl : code ∉ cfgCodes tl := by
        intro h
        exact hmem (by simp [cfgCodes]; right; simp [cfgCodes] at h; exact h)
      rw [ih _ f code htl ha]
      simp [hne]

/-- A code present in the new configuration (whose codes are distinct, as
dict keys are) ends up with its existing state updated in place. -/
theorem applyCfg_update (cfg : List (String × StockInfo)) :
    ∀ (states f : String → Option SymbolState) (code : String)
      (info : StockInfo) (st : SymbolState) (r : ℚ × ℚ),
      (cfgCodes cfg).Nodup → (code, info) ∈ cfg → states code = some st →
      calculate_holding_from_transactions info.transactions = some r →
      applyCfg states cfg = some f →
      f code = some (update_symbol_state st info r.1 r.2) := by
  induction cfg with
  | nil => intro states f code info st r _ hmem _ _ _; simp at hmem
  | cons hd tl ih =>
    intro states f code info st r hnd hmem hst hcalc ha
    obtain ⟨c, i⟩ := hd
    rcases List.mem_cons.mp hmem with heq | htl
    · obtain ⟨h1, h2⟩ := Prod.mk.injEq .. ▸ heq
      subst h1
      subst h2
      simp only [applyCfg] at ha
      rw [hcalc, hst] at ha
      simp only at ha
      have hnd' : (code :: cfgCodes tl).Nodup := hnd
      have hnotin : code ∉ cfgCodes tl := (List.nodup_cons.mp hnd').1
      rw [applyCfg_frame tl _ f code hnotin ha]
      simp
    · have hintl : code ∈ cfgCodes tl := by
        simp only [cfgCodes, List.mem_map]
        exact ⟨(code, info), htl, rfl⟩
      have hnd' : (c :: cfgCodes tl).Nodup := hnd
      have hne : c ≠ code := by
        intro h
        subst h
        exact (List.nodup_cons.mp hnd').1 hintl
      simp only [applyCfg] at ha
      cases hcalc2 : calculate_holding_from_transactions i.transactions with
      | none => rw [hcalc2] at ha; simp at ha
      | some r2 =>
        rw [hcalc2] at ha
        simp only at ha
        refine ih _ f code info st r
          ((List.nodup_cons.mp hnd').2) htl ?_ hcalc ha
        show (if code = c then _ else states code) = some st
        rw [if_neg (fun h => hne h.symm)]
        exact hst

/-- C6: after a configuration reload, every symbol present in both the
existing state and the new configuration keeps `last_price` and
`last_time` unchanged, has its holding quantity recomputed from the new
transactions and its alert thresholds taken from the new configuration,
and has both alert marks cleared (both directions re-armed); every symbol
absent from the new configuration keeps its entire state entry
unchanged. -/
theorem C6_config_reconciliation (cfg : List (String × StockInfo))
    (states f : String → Option SymbolState)
    (ha : applyCfg states cfg = some f) :
    ((cfgCodes cfg).Nodup →
      ∀ (code : String) (info : StockInfo) (st : SymbolState) (r : ℚ × ℚ),
        (code, info) ∈ cfg → states code = some st →
        calculate_holding_from_transactions info.transactions = some r →
        f code = some (update_symbol_state st info r.1 r.2) ∧
        (update_symbol_state st info r.1 r.2).last_price = st.last_price ∧
        (update_symbol_state st info r.1 r.2).last_time = st.last_time ∧
        (update_symbol_state st info r.1 r.2).holding_quantity = r.1 ∧
        (update_symbol_state st info r.1 r.2).alert_up = info.alert_up ∧
        (update_symbol_state st info r.1 r.2).alert_down = info.alert_down ∧
        (update_symbol_state st info r.1 r.2).alert_triggered_up = false ∧
        (update_symbol_state st info r.1 r.2).alert_triggered_down = false) ∧
    (∀ code : String, code ∉ cfgCodes cfg → f code = states code) :=
  ⟨fun hnd code info st r hmem hst hcalc =>
    ⟨applyCfg_update cfg states f code info st r hnd hmem hst hcalc ha,
      rfl, rfl, rfl, rfl, rfl, rfl, rfl⟩,
    fun code hmem => applyCfg_frame cfg states f code hmem ha⟩

/-- The new configuration entry used by the C6 witness: two shares bought
at 10, a fresh upper alert of 12. -/
def c6_info : StockInfo :=
  { transactions := [numTrans (2, 10)], alert_up := some 12,
    alert_down := none }

/-- The pre-existing state of the reconciled symbol in the C6 witness:
it has price history and both alerts already triggered. -/
def c6_st0 : SymbolState :=
  { mk_alert_state (some 11) none (some 9) true true with
    last_time := some 5
    holding_quantity := 3 }

/-- State map of the C6 witness: one known symbol. -/
def c6_states : String → Option SymbolState :=
  fun c => if c = "600519" then some c6_st0 else none

/-- Configuration of the C6 witness. -/
def c6_cfg : List (String × StockInfo) := [("600519", c6_info)]

/-- Post-reconciliation state map of the C6 witness. -/
def c6_f : String → Option SymbolState :=
  fun c =>
    if c = "600519" then some (update_symbol_state c6_st0 c6_info 2 10)
    else c6_states c

/-- The witness configuration's holding: 2 shares at average cost 10. -/
theorem c6_calc :
    calculate_holding_from_transactions c6_info.transactions =
      some (2, 10) := by
  norm_num [c6_info, calculate_holding_from_transactions, calcLoop,
    numTrans, transGet, pyFloat]

/-- Running the reconciliation loop on the C6 witness data. -/
theorem c6_apply : applyCfg c6_states c6_cfg = some c6_f := by
  simp only [c6_cfg, applyCfg, c6_calc]
  have h0 : c6_states "600519" = some c6_st0 := by simp [c6_states]
  rw [h0]
  rfl

/-- Witness for C6 at the concrete reconciliation above. -/
theorem C6_config_reconciliation_witness :
    c6_f "600519" = some (update_symbol_state c6_st0 c6_info 2 10) ∧
    c6_f "AAPL" = c6_states "AAPL" :=
  ⟨((C6_config_reconciliation c6_cfg c6_states c6_f c6_apply).1
      (by simp [c6_cfg, cfgCodes]) "600519" c6_info c6_st0 (2, 10)
      (by simp [c6_cfg]) (by simp [c6_states]) c6_calc).1,
    (C6_config_reconciliation c6_cfg c6_states c6_f c6_apply).2 "AAPL"
      (by simp [c6_cfg, cfgCodes])⟩

/-! ## Claim C8 -/

/-- While the observed date never changes, each cycle produces exactly
its own same-date snapshot write. -/
theorem cycleWrites_const {α : Type} (d : String) :
    ∀ l : List (String × α), (∀ x ∈ l, x.1 = d) →
      cycleWrites l d = l.map (fun x => (d, x.2)) := by
  intro l
  induction l with
  | nil => intro _; simp [cycleWrites]
  | cons hd tl ih =>
    intro h
    obtain ⟨d0, s0⟩ := hd
    have hd0 : d0 = d := h (d0, s0) (List.mem_cons_self _ _)
    subst hd0
    simp [cycleWrites, ih (fun x hx => h x (List.mem_cons_of_mem _ hx))]

/-- C8: when the loop's observed dates run `d1, …, d1, d2, …, d2` with the
remembered date starting at `d1`, the per-cycle snapshot writes are: one
`d1` write per `d1` cycle; then, in the cycle that first observes `d2`,
one final `d1` write carrying the engine state the loop holds at that
moment of detection, followed by that cycle's `d2` write with the same
state; and every later write targets `d2`.  In particular, after the
rollover is observed, exactly one write for the earlier date occurs. -/
theorem C8_date_rollover {α : Type} (c1 r2 : List (String × α))
    (d1 d2 : String) (s2 : α) (h1 : ∀ x ∈ c1, x.1 = d1)
    (h2 : ∀ x ∈ r2, x.1 = d2) (hne : d1 ≠ d2) :
    cycleWrites (c1 ++ (d2, s2) :: r2) d1 =
      c1.map (fun x => (d1, x.2)) ++
        (d1, s2) :: (d2, s2) :: r2.map (fun x => (d2, x.2)) ∧
    ((cycleWrites (c1 ++ (d2, s2) :: r2) d1).drop c1.length).filter
        (fun w => w.1 = d1) = [(d1, s2)] := by
  have key : ∀ l : List (String × α), (∀ x ∈ l, x.1 = d1) →
      cycleWrites (l ++ (d2, s2) :: r2) d1 =
        l.map (fun x => (d1, x.2)) ++
          (d1, s2) :: (d2, s2) :: r2.map (fun x => (d2, x.2)) := by
    intro l
    induction l with
    | nil =>
      intro _
      simp [cycleWrites, hne, cycleWrites_const d2 r2 h2]
    | cons hd tl ih =>
      intro h
      obtain ⟨d0, s0⟩ := hd
      have hd0 : d0 = d1 := h (d0, s0) (List.mem_cons_self _ _)
      subst hd0
      simp [cycleWrites, ih (fun x hx => h x (List.mem_cons_of_mem _ hx))]
  refine ⟨key c1 h1, ?_⟩
  rw [key c1 h1, List.drop_left' (by simp)]
  have hmap : (r2.map (fun x => (d2, x.2))).filter
      (fun w => decide (w.1 = d1)) = [] := by
    rw [List.filter_eq_nil_iff]
    intro a ha
    simp only [List.mem_map] at ha
    obtain ⟨x, _, rfl⟩ := ha
    simp [Ne.symm hne]
  simp [List.filter_cons, hne, Ne.symm hne, hmap]

/-- Witness for C8 at a concrete two-day cycle sequence: one `2025-01-01`
cycle, then two `2025-01-02` cycles, engine states `0, 1, 2`. -/
theorem C8_date_rollover_witness :
    cycleWrites
        ([("2025-01-01", (0 : ℕ))] ++
          ("2025-01-02", 1) :: [("2025-01-02", 2)]) "2025-01-01" =
      [("2025-01-01", (0 : ℕ))].map (fun x => ("2025-01-01", x.2)) ++
        ("2025-01-01", 1) :: ("2025-01-02", 1) ::
          [("2025-01-02", (2 : ℕ))].map (fun x => ("2025-01-02", x.2)) :=
  (C8_date_rollover [("2025-01-01", 0)] [("2025-01-02", 2)]
    "2025-01-01" "2025-01-02" 1 (by decide) (by decide) (by decide)).1

/-! ## Claim C10 -/

/-- C10: a code is classified as a US symbol exactly when it is made of
letters only and is 1 to 5 characters long; both the trading-hours gate
and the family of provider endpoints attempted for quotes depend on the
code only through that classification (every non-US code is gated and
quoted as an A-share symbol). -/
theorem C10_market_classification :
    (∀ code : String, is_us_stock code = true ↔
      ((∀ c ∈ code.data, c.isAlpha) ∧ 1 ≤ code.length ∧ code.length ≤ 5)) ∧
    (∀ a b : String, is_us_stock a = is_us_stock b →
      market_name_of a = market_name_of b) ∧
    (∀ a b : String, ∀ mh : List (String × MarketConfig), ∀ wd : ℕ,
      ∀ cur : String, is_us_stock a = is_us_stock b →
      is_trading_time a mh wd cur = is_trading_time b mh wd cur) ∧
    (∀ a b : String, is_us_stock a = is_us_stock b →
      (quote_endpoints a).map endpoint_kind =
        (quote_endpoints b).map endpoint_kind) := by
  have hmn : ∀ a b : String, is_us_stock a = is_us_stock b →
      market_name_of a = market_name_of b := by
    intro a b h
    simp [market_name_of, h]
  refine ⟨?_, hmn, ?_, ?_⟩
  · intro code
    simp [is_us_stock, List.all_eq_true, Bool.and_eq_true,
      decide_eq_true_eq, and_assoc]
  · intro a b mh wd cur h
    simp only [is_trading_time, hmn a b h]
  · intro a b h
    simp only [quote_endpoints, h]
    cases hb : is_us_stock b <;> simp [endpoint_kind]

/-- Witness for C10 at two concrete US symbols and a concrete A-share
symbol against the empty market-hours configuration. -/
theorem C10_market_classification_witness :
    market_name_of "TSLA" = market_name_of "AAPL" ∧
    is_trading_time "600000" [] 3 "10:00" =
      is_trading_time "000001" [] 3 "10:00" ∧
    (quote_endpoints "TSLA").map endpoint_kind =
      (quote_endpoints "AAPL").map endpoint_kind :=
  ⟨C10_market_classification.2.1 "TSLA" "AAPL" (by decide),
    C10_market_classification.2.2.1 "600000" "000001" [] 3 "10:00"
      (by decide),
    C10_market_classification.2.2.2 "TSLA" "AAPL" (by decide)⟩

end ListenStock
